import Mathlib

/-!
Verification of the golf-shot-db server core (`src/app.py`).

The server is a set of Flask handlers over three PostgreSQL tables
(`rounds`, `shots`, `holes`).  We embed the database state as lists of
rows together with the `SERIAL` counters, and each HTTP handler as a
pure function from a request and a state to a response and a new state.
An error response (the JSON `{success:false, error}` envelope with
HTTP 500) is modelled by the `Resp.err` constructor; in that case the
handler leaves the state unchanged (no commit happens).

Timestamps are modelled as integers, SQL `NULL`-able columns as
`Option`, and `DOUBLE PRECISION` coordinates stored in rows as
rationals.  The client-side haversine distance function is modelled
over the reals further below.
-/

namespace GolfShotDB

/-- A row of the `rounds` table (schema in `init_db`).  `round_id` is the
`BIGINT PRIMARY KEY`; `synced_to_local BOOLEAN DEFAULT FALSE`;
`created_at TIMESTAMP DEFAULT CURRENT_TIMESTAMP`. -/
structure Round where
  round_id : Int
  date : Int
  course_name : Option String
  total_holes : Option Int
  total_shots : Option Int
  total_score : Option Int := none
  weather : Option String := none
  notes : Option String := none
  synced_to_local : Bool
  created_at : Int
  deriving DecidableEq, Repr

/-- A row of the `shots` table.  `shot_id SERIAL PRIMARY KEY`; a declared
foreign key references `rounds(round_id)`. -/
structure Shot where
  shot_id : Nat
  round_id : Int
  hole : Int
  shot_number : Int
  club : String
  shot_type : String
  latitude : Rat
  longitude : Rat
  accuracy : Option Rat
  distance : Option Int
  elevation_change : Option Rat := none
  wind_speed : Option Int := none
  wind_direction : Option String := none
  timestamp : Option Int
  created_at : Int
  deriving DecidableEq, Repr

/-- A row of the `holes` table.  `hole_id SERIAL PRIMARY KEY`; a declared
foreign key references `rounds(round_id)`. -/
structure Hole where
  hole_id : Nat
  round_id : Int
  hole_number : Int
  score : Int
  par : Option Int := none
  fairway_hit : Option Bool := none
  green_in_regulation : Option Bool := none
  putts : Option Int := none
  notes : Option String
  created_at : Int
  deriving DecidableEq, Repr

/-- The database state: the three tables plus the `SERIAL` sequences that
assign `shot_id` / `hole_id`. -/
structure DB where
  rounds : List Round
  shots : List Shot
  holes : List Hole
  next_shot_id : Nat
  next_hole_id : Nat
  deriving DecidableEq, Repr

def emptyDB : DB := ⟨[], [], [], 1, 1⟩

/-- A handler response: `ok` is the `{success: true, ...}` JSON body and
`err` the `{success: false, error}` envelope returned with HTTP 500. -/
inductive Resp (α : Type) where
  | ok : α → Resp α
  | err : String → Resp α
  deriving DecidableEq, Repr

def Resp.isOk {α : Type} : Resp α → Bool
  | .ok _ => true
  | .err _ => false

/-- JSON body of a `POST /api/shot` request.  A `none` in a required
field models the key being absent (Python raises `KeyError`).  The
optional `timestamp` is doubly optional: the outer `Option` is presence
of the key, the inner one JSON `null` (Python `data.get('timestamp',
datetime.now())` substitutes the current time only when the key is
absent). -/
structure ShotReq where
  round_id : Option Int
  hole : Option Int
  shot_number : Option Int
  club : Option String
  shot_type : Option String
  latitude : Option Rat
  longitude : Option Rat
  accuracy : Option Rat := none
  distance : Option Int := none
  timestamp : Option (Option Int) := none
  deriving DecidableEq, Repr

/-- JSON body of a `POST /api/hole` request (`round_id`, `hole`, `score`
are read with `data[...]`, `notes` with `data.get('notes', '')`). -/
structure HoleReq where
  round_id : Int
  hole : Int
  score : Int
  notes : Option String := none
  deriving DecidableEq, Repr

/-- JSON body of a `POST /api/round` request (`round_id` is read with
`data[...]`; the rest with `data.get`, whose defaults are `datetime.now()`
for `date`, `''` for `course_name`, and `None` otherwise). -/
structure RoundReq where
  round_id : Int
  date : Option Int := none
  course_name : Option String := none
  total_holes : Option Int := none
  total_shots : Option Int := none
  deriving DecidableEq, Repr

/-- Does a round row with this id exist (the foreign-key / conflict
check)? -/
def DB.hasRound (db : DB) (rid : Int) : Bool :=
  db.rounds.any (fun r => r.round_id == rid)

/-- `POST /api/shot` (`save_shot` in `app.py`): reads the required keys
(raising `KeyError` if one is missing, caught into the error envelope),
then inserts one row into `shots`.  The declared foreign key makes the
insert fail when no round row with `round_id` exists.  On error nothing
is committed. -/
def save_shot (now : Int) (req : ShotReq) (db : DB) : Resp Nat × DB :=
  match req.round_id, req.hole, req.shot_number, req.club, req.shot_type,
        req.latitude, req.longitude with
  | some rid, some hl, some sn, some cl, some st, some la, some lo =>
    if db.hasRound rid then
      let s : Shot :=
        { shot_id := db.next_shot_id, round_id := rid, hole := hl,
          shot_number := sn, club := cl, shot_type := st, latitude := la,
          longitude := lo, accuracy := req.accuracy, distance := req.distance,
          timestamp := req.timestamp.getD (some now), created_at := now }
      (.ok db.next_shot_id,
       { db with shots := db.shots ++ [s], next_shot_id := db.next_shot_id + 1 })
    else
      (.err "violates foreign key constraint on shots.round_id", db)
  | _, _, _, _, _, _, _ => (.err "KeyError: missing required field", db)

/-- `POST /api/hole` (`save_hole` in `app.py`): inserts one row into
`holes`; the declared foreign key makes the insert fail when no round
row with `round_id` exists. -/
def save_hole (now : Int) (req : HoleReq) (db : DB) : Resp Unit × DB :=
  if db.hasRound req.round_id then
    let h : Hole :=
      { hole_id := db.next_hole_id, round_id := req.round_id,
        hole_number := req.hole, score := req.score,
        notes := some (req.notes.getD ""), created_at := now }
    (.ok (),
     { db with holes := db.holes ++ [h], next_hole_id := db.next_hole_id + 1 })
  else
    (.err "violates foreign key constraint on holes.round_id", db)

/-- The round row that `save_round`'s `INSERT` supplies: listed columns
from the request (with the `data.get` defaults), the rest from the
column defaults (`synced_to_local` FALSE, `created_at` now). -/
def roundRowOf (now : Int) (req : RoundReq) : Round :=
  { round_id := req.round_id, date := req.date.getD now,
    course_name := some (req.course_name.getD ""),
    total_holes := req.total_holes, total_shots := req.total_shots,
    synced_to_local := false, created_at := now }

/-- `POST /api/round` (`save_round` in `app.py`):
`INSERT INTO rounds ... ON CONFLICT (round_id) DO UPDATE SET
course_name = EXCLUDED.course_name, total_holes = EXCLUDED.total_holes,
total_shots = EXCLUDED.total_shots, date = EXCLUDED.date`. -/
def save_round (now : Int) (req : RoundReq) (db : DB) : Resp Unit × DB :=
  let row := roundRowOf now req
  if db.hasRound req.round_id then
    (.ok (),
     { db with rounds := db.rounds.map (fun r =>
         if r.round_id == req.round_id then
           { r with course_name := row.course_name,
                    total_holes := row.total_holes,
                    total_shots := row.total_shots,
                    date := row.date }
         else r) })
  else
    (.ok (), { db with rounds := db.rounds ++ [row] })

/-- One entry of the `GET /api/export/unsynced` payload: a round with its
nested shot and hole lists. -/
structure ExportEntry where
  round : Round
  shots : List Shot
  holes : List Hole
  deriving DecidableEq, Repr

/-- `ORDER BY date DESC` on rounds. -/
def dateDesc (a b : Round) : Bool := decide (b.date ≤ a.date)

/-- `ORDER BY hole, shot_number` on shots. -/
def shotLe (a b : Shot) : Bool :=
  decide (a.hole < b.hole) ||
    (a.hole == b.hole && decide (a.shot_number ≤ b.shot_number))

/-- `ORDER BY hole_number` on holes. -/
def holeLe (a b : Hole) : Bool := decide (a.hole_number ≤ b.hole_number)

/-- `GET /api/export/unsynced` (`export_unsynced` in `app.py`): selects
the rounds with `synced_to_local = FALSE` ordered by `date DESC` and,
for each, its shots ordered by `(hole, shot_number)` and its holes
ordered by `hole_number`.  Only `SELECT` statements run: the state is
returned unchanged. -/
def export_unsynced (db : DB) : Resp (List ExportEntry) × DB :=
  let rds := (db.rounds.filter (fun r => !r.synced_to_local)).mergeSort dateDesc
  (.ok (rds.map (fun r =>
     { round := r,
       shots := (db.shots.filter (fun s => s.round_id == r.round_id)).mergeSort shotLe,
       holes := (db.holes.filter (fun h => h.round_id == r.round_id)).mergeSort holeLe })),
   db)

/-- `POST /api/mark-synced/<round_id>` (`mark_synced` in `app.py`):
`UPDATE rounds SET synced_to_local = TRUE WHERE round_id = %s`, then
`{success: true}` regardless of how many rows matched. -/
def mark_synced (rid : Int) (db : DB) : Resp Unit × DB :=
  (.ok (),
   { db with rounds := db.rounds.map (fun r =>
       if r.round_id == rid then { r with synced_to_local := true } else r) })

/-- One API call, with the server time at which it runs. -/
inductive Op where
  | shot : Int → ShotReq → Op
  | hole : Int → HoleReq → Op
  | round : Int → RoundReq → Op
  | mark : Int → Op
  | exportU : Op
  deriving DecidableEq, Repr

/-- State transition of one API call (the response dropped). -/
def applyOp (db : DB) (op : Op) : DB :=
  match op with
  | .shot now req => (save_shot now req db).2
  | .hole now req => (save_hole now req db).2
  | .round now req => (save_round now req db).2
  | .mark rid => (mark_synced rid db).2
  | .exportU => (export_unsynced db).2

/-! ### Basic lemmas about `save_round` -/

theorem hasRound_iff {db : DB} {rid : Int} :
    db.hasRound rid = true ↔ ∃ r ∈ db.rounds, r.round_id = rid := by
  simp [DB.hasRound, List.any_eq_true]

theorem save_round_ids (now : Int) (req : RoundReq) (db : DB) :
    (save_round now req db).2.rounds.map Round.round_id =
      if db.hasRound req.round_id then db.rounds.map Round.round_id
      else db.rounds.map Round.round_id ++ [req.round_id] := by
  by_cases h : db.hasRound req.round_id
  · simp only [save_round, h, if_true, List.map_map]
    apply List.map_congr_left
    intro r _
    simp only [Function.comp_apply]
    split <;> rfl
  · simp [save_round, h, roundRowOf]

theorem save_round_ids_nodup (now : Int) (req : RoundReq) (db : DB)
    (hnd : (db.rounds.map Round.round_id).Nodup) :
    ((save_round now req db).2.rounds.map Round.round_id).Nodup := by
  rw [save_round_ids]
  split
  · exact hnd
  · rename_i h
    have hmem : req.round_id ∉ db.rounds.map Round.round_id := by
      intro hc
      obtain ⟨r, hr, hid⟩ := List.mem_map.mp hc
      exact h (hasRound_iff.mpr ⟨r, hr, hid⟩)
    simp [List.nodup_append, hnd, hmem]

theorem save_round_mem_id (now : Int) (req : RoundReq) (db : DB) :
    req.round_id ∈ (save_round now req db).2.rounds.map Round.round_id := by
  rw [save_round_ids]
  split
  · rename_i h
    obtain ⟨r, hr, hid⟩ := hasRound_iff.mp h
    exact List.mem_map.mpr ⟨r, hr, hid⟩
  · simp

theorem save_round_update_fields (now : Int) (req : RoundReq) (db : DB)
    (h : db.hasRound req.round_id = true) :
    ∀ r' ∈ (save_round now req db).2.rounds, r'.round_id = req.round_id →
      r'.course_name = some (req.course_name.getD "") ∧
      r'.total_holes = req.total_holes ∧
      r'.total_shots = req.total_shots ∧
      r'.date = req.date.getD now := by
  intro r' hmem hid
  simp only [save_round, h, if_true] at hmem
  obtain ⟨r, _, rfl⟩ := List.mem_map.mp hmem
  by_cases hb : r.round_id == req.round_id
  · simp [hb, roundRowOf]
  · rw [if_neg (by simpa using hb)] at hid ⊢
    exact absurd hid (by simpa using hb)

theorem count_round_id_one {l : List Round} {rid : Int}
    (hnd : (l.map Round.round_id).Nodup) (hmem : rid ∈ l.map Round.round_id) :
    (l.filter (fun r => r.round_id == rid)).length = 1 := by
  have h1 : (l.filter (fun r => r.round_id == rid)).length =
      List.countP (fun r => r.round_id == rid) l :=
    (List.countP_eq_length_filter _ _).symm
  have h2 : List.countP (fun r => r.round_id == rid) l =
      (l.map Round.round_id).count rid := by
    rw [List.count_eq_countP, List.countP_map]
    rfl
  rw [h1, h2]
  exact List.count_eq_one_of_mem hnd hmem

/-- **C1**: `save_round` is an upsert keyed on `round_id`.  If the id is
absent it appends exactly one new row (the request row); if present, the
row count is unchanged, the row with that id carries the request's
`course_name`, `total_holes`, `total_shots` and `date`, and every other
row is untouched.  Upserting again with the same id (any new values)
leaves exactly one stored row with that id, carrying the latest
`course_name`. -/
theorem save_round_upsert_correct (now : Int) (req : RoundReq) (db : DB)
    (hnd : (db.rounds.map Round.round_id).Nodup) :
    ((¬ ∃ r ∈ db.rounds, r.round_id = req.round_id) →
      (save_round now req db).2.rounds = db.rounds ++ [roundRowOf now req] ∧
      (save_round now req db).2.rounds.length = db.rounds.length + 1) ∧
    ((∃ r ∈ db.rounds, r.round_id = req.round_id) →
      (save_round now req db).2.rounds.length = db.rounds.length ∧
      (∀ r' ∈ (save_round now req db).2.rounds, r'.round_id = req.round_id →
        r'.course_name = some (req.course_name.getD "") ∧
        r'.total_holes = req.total_holes ∧
        r'.total_shots = req.total_shots ∧
        r'.date = req.date.getD now) ∧
      (∀ r ∈ db.rounds, r.round_id ≠ req.round_id →
        r ∈ (save_round now req db).2.rounds)) ∧
    (∀ now2 req2, req2.round_id = req.round_id →
      ((save_round now2 req2 (save_round now req db).2).2.rounds.filter
          (fun r => r.round_id == req.round_id)).length = 1 ∧
      ∀ r' ∈ (save_round now2 req2 (save_round now req db).2).2.rounds,
        r'.round_id = req.round_id →
          r'.course_name = some (req2.course_name.getD "")) := by
  refine ⟨?_, ?_, ?_⟩
  · intro hne
    have h : db.hasRound req.round_id = false := by
      rcases hb : db.hasRound req.round_id with _ | _
      · rfl
      · exact absurd (hasRound_iff.mp hb) hne
    constructor
    · simp [save_round, h]
    · simp [save_round, h]
  · intro hex
    have h : db.hasRound req.round_id = true := hasRound_iff.mpr hex
    refine ⟨by simp [save_round, h], save_round_update_fields now req db h, ?_⟩
    intro r hr hne
    simp only [save_round, h, if_true]
    have : (if r.round_id == req.round_id then
        { r with course_name := (roundRowOf now req).course_name,
                 total_holes := (roundRowOf now req).total_holes,
                 total_shots := (roundRowOf now req).total_shots,
                 date := (roundRowOf now req).date } else r) = r := by
      rw [if_neg (by simpa using hne)]
    exact this ▸ List.mem_map_of_mem _ hr
  · intro now2 req2 hid2
    have hnd1 := save_round_ids_nodup now req db hnd
    have hmem1 := save_round_mem_id now req db
    have h1 : (save_round now req db).2.hasRound req2.round_id = true := by
      rw [hid2]
      obtain ⟨r, hr, hid⟩ := List.mem_map.mp hmem1
      exact hasRound_iff.mpr ⟨r, hr, hid⟩
    constructor
    · apply count_round_id_one
      · exact save_round_ids_nodup now2 req2 _ hnd1
      · rw [← hid2]
        exact save_round_mem_id now2 req2 _
    · intro r' hr' hid'
      exact (save_round_update_fields now2 req2 _ h1 r' hr' (hid'.trans hid2.symm)).1

/-- A sample stored round used to instantiate hypothesised theorems. -/
def sampleRound : Round :=
  { round_id := 1001, date := 5, course_name := some "Pebble Creek",
    total_holes := some 18, total_shots := some 72,
    synced_to_local := false, created_at := 0 }

/-- A sample database holding just `sampleRound`. -/
def sampleDB : DB := { emptyDB with rounds := [sampleRound] }

theorem save_round_upsert_correct_witness :
    ((save_round 0 { round_id := 7 } emptyDB).2.rounds.length = 1) ∧
    ((save_round 1 { round_id := 7, course_name := some "B" }
        (save_round 0 { round_id := 7 } emptyDB).2).2.rounds.filter
        (fun r => r.round_id == (7 : Int))).length = 1 := by
  have h := save_round_upsert_correct 0 { round_id := 7 } emptyDB (by simp [emptyDB])
  constructor
  · simpa [emptyDB] using (h.1 (by simp [emptyDB])).2
  · exact (h.2.2 1 { round_id := 7, course_name := some "B" } rfl).1

/-- **C2**: for every existing round row, `save_round` preserves its
`synced_to_local` flag and `created_at` timestamp; a row whose id is not
the request's id is entirely untouched. -/
theorem save_round_preserves_sync_flag (now : Int) (req : RoundReq) (db : DB)
    (r : Round) (hr : r ∈ db.rounds) :
    ∃ r' ∈ (save_round now req db).2.rounds,
      r'.round_id = r.round_id ∧
      r'.synced_to_local = r.synced_to_local ∧
      r'.created_at = r.created_at ∧
      (r.round_id ≠ req.round_id → r' = r) := by
  by_cases h : db.hasRound req.round_id
  · simp only [save_round, h, if_true]
    refine ⟨_, List.mem_map_of_mem _ hr, ?_⟩
    by_cases hb : r.round_id == req.round_id
    · simp [hb, beq_iff_eq.mp hb]
    · simp [hb]
  · simp only [save_round, h, if_false]
    exact ⟨r, List.mem_append_left _ hr, rfl, rfl, rfl, fun _ => rfl⟩

theorem save_round_preserves_sync_flag_witness :
    ∃ r' ∈ (save_round 9 { round_id := 1001, course_name := some "B" }
        sampleDB).2.rounds,
      r'.round_id = sampleRound.round_id ∧
      r'.synced_to_local = sampleRound.synced_to_local ∧
      r'.created_at = sampleRound.created_at ∧
      (sampleRound.round_id ≠
          ({ round_id := 1001, course_name := some "B" } : RoundReq).round_id →
        r' = sampleRound) :=
  save_round_preserves_sync_flag 9 _ sampleDB sampleRound
    (by simp [sampleDB, emptyDB])

/-! ### `mark_synced` and monotonicity of the sync flag -/

theorem save_shot_rounds_eq (now : Int) (req : ShotReq) (db : DB) :
    (save_shot now req db).2.rounds = db.rounds := by
  unfold save_shot
  repeat' split
  all_goals rfl

theorem save_hole_rounds_eq (now : Int) (req : HoleReq) (db : DB) :
    (save_hole now req db).2.rounds = db.rounds := by
  unfold save_hole
  split <;> rfl

theorem export_unsynced_state_eq (db : DB) : (export_unsynced db).2 = db := rfl

theorem mark_synced_mem (rid : Int) (db : DB) (r : Round) (hr : r ∈ db.rounds) :
    ∃ r' ∈ (mark_synced rid db).2.rounds,
      r'.round_id = r.round_id ∧
      (r'.synced_to_local = r.synced_to_local ∨ r'.synced_to_local = true) ∧
      (r.round_id = rid → r'.synced_to_local = true) := by
  refine ⟨_, List.mem_map_of_mem _ hr, ?_⟩
  by_cases hb : r.round_id == rid
  · simp [hb]
  · rw [if_neg (by simpa using hb)]
    exact ⟨rfl, Or.inl rfl, fun h => absurd h (by simpa using hb)⟩

/-- **C4**: `mark_synced` always responds with success; if a round with
the identifier exists its flag becomes `true`; the operation is
idempotent (running it twice gives the same state and response as
once); and on an unknown identifier it changes nothing and creates no
row. -/
theorem mark_synced_correct (rid : Int) (db : DB) :
    (mark_synced rid db).1 = .ok () ∧
    (∀ r ∈ db.rounds, r.round_id = rid →
      ∃ r' ∈ (mark_synced rid db).2.rounds,
        r'.round_id = rid ∧ r'.synced_to_local = true) ∧
    mark_synced rid (mark_synced rid db).2 = mark_synced rid db ∧
    ((∀ r ∈ db.rounds, r.round_id ≠ rid) → (mark_synced rid db).2 = db) := by
  refine ⟨rfl, ?_, ?_, ?_⟩
  · intro r hr hid
    obtain ⟨r', hr', hid', _, himp⟩ := mark_synced_mem rid db r hr
    exact ⟨r', hr', hid'.trans hid, himp hid⟩
  · have hmap : ((mark_synced rid db).2.rounds.map (fun r =>
        if r.round_id == rid then { r with synced_to_local := true } else r)) =
        (mark_synced rid db).2.rounds := by
      simp only [mark_synced, List.map_map]
      apply List.map_congr_left
      intro r _
      simp only [Function.comp_apply]
      by_cases hb : r.round_id == rid
      · simp [hb]
      · simp [hb]
    simp only [mark_synced] at hmap ⊢
    rw [hmap]
  · intro habs
    have hpt : ∀ r ∈ db.rounds,
        (if r.round_id == rid then { r with synced_to_local := true } else r) = r := by
      intro r hr
      rw [if_neg (by simpa using habs r hr)]
    have hmap : db.rounds.map (fun r =>
        if r.round_id == rid then { r with synced_to_local := true } else r) =
        db.rounds := by
      simpa using List.map_congr_left hpt
    simp only [mark_synced, hmap]

/-- One API call never lowers a round's `synced_to_local` flag. -/
theorem applyOp_synced_preserved (op : Op) (db : DB) (r : Round)
    (hr : r ∈ db.rounds) (hs : r.synced_to_local = true) :
    ∃ r' ∈ (applyOp db op).rounds,
      r'.round_id = r.round_id ∧ r'.synced_to_local = true := by
  cases op with
  | shot now req =>
    exact ⟨r, by rw [applyOp, save_shot_rounds_eq]; exact hr, rfl, hs⟩
  | hole now req =>
    exact ⟨r, by rw [applyOp, save_hole_rounds_eq]; exact hr, rfl, hs⟩
  | round now req =>
    obtain ⟨r', hr', hid', hsy', _, _⟩ :=
      save_round_preserves_sync_flag now req db r hr
    exact ⟨r', hr', hid', hsy'.trans hs⟩
  | mark rid =>
    obtain ⟨r', hr', hid', hor, _⟩ := mark_synced_mem rid db r hr
    rcases hor with h | h
    · exact ⟨r', hr', hid', h.trans hs⟩
    · exact ⟨r', hr', hid', h⟩
  | exportU => exact ⟨r, hr, rfl, hs⟩

/-- **C10**: the sync flag is monotone.  Any round row created by an API
call (an id not previously stored) starts with `synced_to_local =
false`, and a round that is synced stays synced (with its id present)
under every sequence of API calls. -/
theorem synced_to_local_monotone (ops : List Op) (db : DB) (r : Round)
    (hr : r ∈ db.rounds) (hs : r.synced_to_local = true) :
    (∃ r' ∈ (ops.foldl applyOp db).rounds,
      r'.round_id = r.round_id ∧ r'.synced_to_local = true) ∧
    (∀ (op : Op) (db' : DB), ∀ r' ∈ (applyOp db' op).rounds,
      (∃ r0 ∈ db'.rounds, r'.round_id = r0.round_id) ∨
        r'.synced_to_local = false) := by
  constructor
  · induction ops generalizing db r with
    | nil => exact ⟨r, hr, rfl, hs⟩
    | cons op ops ih =>
      obtain ⟨r1, hr1, hid1, hs1⟩ := applyOp_synced_preserved op db r hr hs
      obtain ⟨r2, hr2, hid2, hs2⟩ := ih (applyOp db op) r1 hr1 hs1
      exact ⟨r2, by simpa using hr2, hid2.trans hid1, hs2⟩
  · intro op db' r' hr'
    cases op with
    | shot now req =>
      rw [applyOp, save_shot_rounds_eq] at hr'
      exact Or.inl ⟨r', hr', rfl⟩
    | hole now req =>
      rw [applyOp, save_hole_rounds_eq] at hr'
      exact Or.inl ⟨r', hr', rfl⟩
    | round now req =>
      rw [applyOp] at hr'
      by_cases h : db'.hasRound req.round_id
      · simp only [save_round, h, if_true] at hr'
        obtain ⟨r0, hr0, rfl⟩ := List.mem_map.mp hr'
        refine Or.inl ⟨r0, hr0, ?_⟩
        split <;> rfl
      · simp only [save_round, h, Bool.false_eq_true, if_false] at hr'
        rcases List.mem_append.mp hr' with h0 | h0
        · exact Or.inl ⟨r', h0, rfl⟩
        · refine Or.inr ?_
          rw [List.mem_singleton.mp h0]
          rfl
    | mark rid =>
      rw [applyOp] at hr'
      simp only [mark_synced] at hr'
      obtain ⟨r0, hr0, rfl⟩ := List.mem_map.mp hr'
      refine Or.inl ⟨r0, hr0, ?_⟩
      split <;> rfl
    | exportU => exact Or.inl ⟨r', hr', rfl⟩

/-- A sample already-synced round. -/
def sampleSyncedRound : Round :=
  { round_id := 2002, date := 9, course_name := some "Back Nine",
    total_holes := some 9, total_shots := some 41,
    synced_to_local := true, created_at := 1 }

/-- A sample database holding one synced and one unsynced round. -/
def sampleDB2 : DB := { emptyDB with rounds := [sampleRound, sampleSyncedRound] }

theorem synced_to_local_monotone_witness :
    ∃ r' ∈ (([Op.mark 5, Op.round 3 { round_id := 2002 },
        Op.exportU].foldl applyOp sampleDB2)).rounds,
      r'.round_id = sampleSyncedRound.round_id ∧ r'.synced_to_local = true :=
  (synced_to_local_monotone [Op.mark 5, Op.round 3 { round_id := 2002 }, Op.exportU]
    sampleDB2 sampleSyncedRound (by simp [sampleDB2, emptyDB]) rfl).1

/-! ### `save_shot`: validation, duplicates, timestamps, foreign key -/

/-- **C6**: a shot request missing any of the seven required fields gets
the error envelope and changes nothing; a request with all required
fields present (whatever its optional fields) does not fail for a
missing field — with the referenced round present it succeeds. -/
theorem save_shot_required_fields (now : Int) (req : ShotReq) (db : DB) :
    ((req.round_id = none ∨ req.hole = none ∨ req.shot_number = none ∨
      req.club = none ∨ req.shot_type = none ∨ req.latitude = none ∨
      req.longitude = none) →
      (save_shot now req db).1 = .err "KeyError: missing required field" ∧
      (save_shot now req db).2 = db) ∧
    (∀ rid hl sn cl st la lo,
      req.round_id = some rid → req.hole = some hl →
      req.shot_number = some sn → req.club = some cl →
      req.shot_type = some st → req.latitude = some la →
      req.longitude = some lo → db.hasRound rid = true →
      (save_shot now req db).1 = .ok db.next_shot_id) := by
  obtain ⟨orid, ohl, osn, ocl, ost, ola, olo, oacc, odist, ots⟩ := req
  cases orid <;> cases ohl <;> cases osn <;> cases ocl <;> cases ost <;>
    cases ola <;> cases olo <;> constructor <;> intro h <;>
    simp_all [save_shot]

/-- **C7**: submitting the same valid shot record twice succeeds both
times and appends two distinct rows that carry distinct, freshly
assigned `shot_id`s and the same request fields: the server performs no
deduplication. -/
theorem save_shot_duplicates_allowed (now now2 : Int) (req : ShotReq) (db : DB)
    (rid hl sn : Int) (cl st : String) (la lo : Rat)
    (hrid : req.round_id = some rid) (hhl : req.hole = some hl)
    (hsn : req.shot_number = some sn) (hcl : req.club = some cl)
    (hst : req.shot_type = some st) (hla : req.latitude = some la)
    (hlo : req.longitude = some lo) (hfk : db.hasRound rid = true) :
    (save_shot now req db).1 = .ok db.next_shot_id ∧
    (save_shot now2 req (save_shot now req db).2).1 = .ok (db.next_shot_id + 1) ∧
    ∃ s1 s2,
      (save_shot now2 req (save_shot now req db).2).2.shots =
        db.shots ++ [s1, s2] ∧
      s1.shot_id = db.next_shot_id ∧ s2.shot_id = db.next_shot_id + 1 ∧
      s1 ≠ s2 ∧
      s1.round_id = rid ∧ s2.round_id = rid ∧
      s1.hole = hl ∧ s2.hole = hl ∧
      s1.shot_number = sn ∧ s2.shot_number = sn := by
  obtain ⟨orid, ohl, osn, ocl, ost, ola, olo, oacc, odist, ots⟩ := req
  simp only [ShotReq.round_id] at hrid
  simp only [ShotReq.hole] at hhl
  simp only [ShotReq.shot_number] at hsn
  simp only [ShotReq.club] at hcl
  simp only [ShotReq.shot_type] at hst
  simp only [ShotReq.latitude] at hla
  simp only [ShotReq.longitude] at hlo
  subst hrid hhl hsn hcl hst hla hlo
  simp only [DB.hasRound] at hfk
  refine ⟨by simp [save_shot, DB.hasRound, hfk], ?_, ?_⟩
  · simp [save_shot, DB.hasRound, hfk]
  · refine ⟨⟨db.next_shot_id, rid, hl, sn, cl, st, la, lo, oacc, odist,
        none, none, none, ots.getD (some now), now⟩,
      ⟨db.next_shot_id + 1, rid, hl, sn, cl, st, la, lo, oacc, odist,
        none, none, none, ots.getD (some now2), now2⟩,
      ?_, rfl, rfl, ?_, rfl, rfl, rfl, rfl, rfl, rfl⟩
    · simp [save_shot, DB.hasRound, hfk, List.append_assoc]
    · intro hc
      have h2 : db.next_shot_id = db.next_shot_id + 1 := congrArg Shot.shot_id hc
      omega

/-- **C9**: when the `timestamp` key is present but null, the stored
shot's timestamp is NULL; the current-server-time default applies
exactly when the key is absent. -/
theorem save_shot_timestamp_null (now : Int) (req : ShotReq) (db : DB)
    (rid hl sn : Int) (cl st : String) (la lo : Rat)
    (hrid : req.round_id = some rid) (hhl : req.hole = some hl)
    (hsn : req.shot_number = some sn) (hcl : req.club = some cl)
    (hst : req.shot_type = some st) (hla : req.latitude = some la)
    (hlo : req.longitude = some lo) (hfk : db.hasRound rid = true) :
    (req.timestamp = some none →
      ∃ s, (save_shot now req db).2.shots = db.shots ++ [s] ∧
        s.timestamp = none) ∧
    (req.timestamp = none →
      ∃ s, (save_shot now req db).2.shots = db.shots ++ [s] ∧
        s.timestamp = some now) ∧
    (∀ t : Int, req.timestamp = some (some t) →
      ∃ s, (save_shot now req db).2.shots = db.shots ++ [s] ∧
        s.timestamp = some t) := by
  obtain ⟨orid, ohl, osn, ocl, ost, ola, olo, oacc, odist, ots⟩ := req
  simp only [ShotReq.round_id] at hrid
  simp only [ShotReq.hole] at hhl
  simp only [ShotReq.shot_number] at hsn
  simp only [ShotReq.club] at hcl
  simp only [ShotReq.shot_type] at hst
  simp only [ShotReq.latitude] at hla
  simp only [ShotReq.longitude] at hlo
  subst hrid hhl hsn hcl hst hla hlo
  simp only [DB.hasRound] at hfk
  refine ⟨?_, ?_, ?_⟩
  · intro ht
    simp only [ShotReq.timestamp] at ht
    subst ht
    exact ⟨⟨db.next_shot_id, rid, hl, sn, cl, st, la, lo, oacc, odist,
        none, none, none, none, now⟩,
      by simp [save_shot, DB.hasRound, hfk], rfl⟩
  · intro ht
    simp only [ShotReq.timestamp] at ht
    subst ht
    exact ⟨⟨db.next_shot_id, rid, hl, sn, cl, st, la, lo, oacc, odist,
        none, none, none, some now, now⟩,
      by simp [save_shot, DB.hasRound, hfk], rfl⟩
  · intro t ht
    simp only [ShotReq.timestamp] at ht
    subst ht
    exact ⟨⟨db.next_shot_id, rid, hl, sn, cl, st, la, lo, oacc, odist,
        none, none, none, some t, now⟩,
      by simp [save_shot, DB.hasRound, hfk], rfl⟩

/-- A complete, well-formed shot request for round 1001. -/
def sampleShotReq : ShotReq :=
  { round_id := some 1001, hole := some 1, shot_number := some 1,
    club := some "Driver", shot_type := some "Tee",
    latitude := some (365/10), longitude := some (-1219/10) }

theorem save_shot_duplicates_allowed_witness :
    (save_shot 0 sampleShotReq sampleDB).1 = .ok sampleDB.next_shot_id ∧
    (save_shot 1 sampleShotReq (save_shot 0 sampleShotReq sampleDB).2).1 =
      .ok (sampleDB.next_shot_id + 1) := by
  have h := save_shot_duplicates_allowed 0 1 sampleShotReq sampleDB
    1001 1 1 "Driver" "Tee" (365/10) (-1219/10)
    rfl rfl rfl rfl rfl rfl rfl (by decide)
  exact ⟨h.1, h.2.1⟩

theorem save_shot_timestamp_null_witness :
    ∃ s, (save_shot 4 { sampleShotReq with timestamp := some none }
        sampleDB).2.shots = sampleDB.shots ++ [s] ∧ s.timestamp = none :=
  (save_shot_timestamp_null 4 { sampleShotReq with timestamp := some none }
    sampleDB 1001 1 1 "Driver" "Tee" (365/10) (-1219/10)
    rfl rfl rfl rfl rfl rfl rfl (by decide)).1 rfl

/-- **C5 counterexample**: on an empty database, a complete shot request
for the unseen round 1001 does not succeed, and no placeholder round
row is created (the rounds table stays empty): the claimed implicit
round creation does not happen. -/
theorem save_shot_no_placeholder_cex :
    (save_shot 0 sampleShotReq emptyDB).1.isOk = false ∧
    (save_shot 0 sampleShotReq emptyDB).2.rounds = [] ∧
    (save_shot 0 sampleShotReq emptyDB).2 = emptyDB := by
  refine ⟨rfl, rfl, rfl⟩

/-- **C5 (amended)**: a shot or hole record whose `round_id` is not in
the rounds table fails (the declared foreign key rejects the insert,
surfacing as the error envelope) and leaves the state unchanged: no
placeholder round is created, so a round row must exist (via the round
upsert) before its shots or holes can be recorded. -/
theorem shot_hole_require_existing_round (now : Int) (sreq : ShotReq)
    (hreq : HoleReq) (db : DB) :
    (∀ rid, sreq.round_id = some rid → db.hasRound rid = false →
      (save_shot now sreq db).1.isOk = false ∧ (save_shot now sreq db).2 = db) ∧
    (db.hasRound hreq.round_id = false →
      (save_hole now hreq db).1.isOk = false ∧ (save_hole now hreq db).2 = db) := by
  constructor
  · intro rid hrid hfk
    obtain ⟨orid, ohl, osn, ocl, ost, ola, olo, oacc, odist, ots⟩ := sreq
    simp only [ShotReq.round_id] at hrid
    subst hrid
    cases ohl <;> cases osn <;> cases ocl <;> cases ost <;> cases ola <;>
      cases olo <;> simp_all [save_shot, Resp.isOk]
  · intro hfk
    simp [save_hole, hfk, Resp.isOk]

/-! ### `export_unsynced` -/

theorem dateDesc_trans (a b c : Round) (h1 : dateDesc a b) (h2 : dateDesc b c) :
    dateDesc a c := by
  simp only [dateDesc, decide_eq_true_eq] at h1 h2 ⊢
  omega

theorem dateDesc_total (a b : Round) : dateDesc a b || dateDesc b a := by
  simp only [dateDesc, Bool.or_eq_true, decide_eq_true_eq]
  omega

theorem shotLe_iff {a b : Shot} : shotLe a b = true ↔
    (a.hole < b.hole ∨ (a.hole = b.hole ∧ a.shot_number ≤ b.shot_number)) := by
  simp [shotLe, Bool.or_eq_true, Bool.and_eq_true, decide_eq_true_eq, beq_iff_eq]

theorem shotLe_trans (a b c : Shot) (h1 : shotLe a b) (h2 : shotLe b c) :
    shotLe a c := by
  rw [shotLe_iff] at h1 h2 ⊢
  omega

theorem shotLe_total (a b : Shot) : shotLe a b || shotLe b a := by
  simp only [Bool.or_eq_true, shotLe_iff]
  omega

theorem holeLe_trans (a b c : Hole) (h1 : holeLe a b) (h2 : holeLe b c) :
    holeLe a c := by
  simp only [holeLe, decide_eq_true_eq] at h1 h2 ⊢
  omega

theorem holeLe_total (a b : Hole) : holeLe a b || holeLe b a := by
  simp only [holeLe, Bool.or_eq_true, decide_eq_true_eq]
  omega

/-- **C3**: the export returns exactly the unsynced rounds (a permutation
of the `synced_to_local = false` rows; a synced round never appears and
every unsynced one does), ordered by date descending, each entry
holding exactly that round's shots ordered by `(hole, shot_number)` and
its holes ordered by `hole_number`; the database state is unchanged. -/
theorem export_unsynced_correct (db : DB) :
    (export_unsynced db).2 = db ∧
    ∃ entries, (export_unsynced db).1 = .ok entries ∧
      (entries.map ExportEntry.round).Perm
        (db.rounds.filter (fun r => !r.synced_to_local)) ∧
      (∀ e ∈ entries, e.round ∈ db.rounds ∧ e.round.synced_to_local = false) ∧
      (∀ r ∈ db.rounds, r.synced_to_local = false → ∃ e ∈ entries, e.round = r) ∧
      (entries.map ExportEntry.round).Pairwise (fun a b => b.date ≤ a.date) ∧
      (∀ e ∈ entries,
        e.shots.Perm
          (db.shots.filter (fun s => s.round_id == e.round.round_id)) ∧
        e.shots.Pairwise (fun a b =>
          a.hole < b.hole ∨ (a.hole = b.hole ∧ a.shot_number ≤ b.shot_number)) ∧
        e.holes.Perm
          (db.holes.filter (fun h => h.round_id == e.round.round_id)) ∧
        e.holes.Pairwise (fun a b => a.hole_number ≤ b.hole_number)) := by
  refine ⟨rfl, _, rfl, ?_, ?_, ?_, ?_, ?_⟩
  · have hmap : (((db.rounds.filter (fun r => !r.synced_to_local)).mergeSort
        dateDesc).map (fun r =>
          ({ round := r,
             shots := (db.shots.filter
               (fun s => s.round_id == r.round_id)).mergeSort shotLe,
             holes := (db.holes.filter
               (fun h => h.round_id == r.round_id)).mergeSort holeLe } :
            ExportEntry))).map ExportEntry.round =
        (db.rounds.filter (fun r => !r.synced_to_local)).mergeSort dateDesc := by
      rw [List.map_map]
      exact List.map_id'' (fun r => rfl) _
    rw [hmap]
    exact List.mergeSort_perm _ _
  · intro e he
    obtain ⟨r, hr, rfl⟩ := List.mem_map.mp he
    have hr' : r ∈ db.rounds.filter (fun r => !r.synced_to_local) :=
      List.mem_mergeSort.mp hr
    have := List.mem_filter.mp hr'
    exact ⟨this.1, by simpa using this.2⟩
  · intro r hr hflag
    refine ⟨_, List.mem_map_of_mem _ (List.mem_mergeSort.mpr ?_), rfl⟩
    exact List.mem_filter.mpr ⟨hr, by simp [hflag]⟩
  · have hmap : (((db.rounds.filter (fun r => !r.synced_to_local)).mergeSort
        dateDesc).map (fun r =>
          ({ round := r,
             shots := (db.shots.filter
               (fun s => s.round_id == r.round_id)).mergeSort shotLe,
             holes := (db.holes.filter
               (fun h => h.round_id == r.round_id)).mergeSort holeLe } :
            ExportEntry))).map ExportEntry.round =
        (db.rounds.filter (fun r => !r.synced_to_local)).mergeSort dateDesc := by
      rw [List.map_map]
      exact List.map_id'' (fun r => rfl) _
    rw [hmap]
    exact (List.sorted_mergeSort dateDesc_trans dateDesc_total _).imp
      (fun h => by simpa [dateDesc] using h)
  · intro e he
    obtain ⟨r, _, rfl⟩ := List.mem_map.mp he
    refine ⟨List.mergeSort_perm _ _, ?_, List.mergeSort_perm _ _, ?_⟩
    · exact (List.sorted_mergeSort shotLe_trans shotLe_total _).imp
        (fun h => shotLe_iff.mp h)
    · exact (List.sorted_mergeSort holeLe_trans holeLe_total _).imp
        (fun h => by simpa [holeLe] using h)

/-! ### The client-side haversine distance calculator -/

/-- The two-argument arctangent as JavaScript's `Math.atan2(y, x)`
computes it (real-valued; the NaN and signed-zero cases do not arise
here):  `atan2` of a point in the right half-plane is `arctan (y/x)`,
in the left half-plane it is shifted by `±π`, and on the `y`-axis it is
`±π/2`. -/
noncomputable def atan2 (y x : ℝ) : ℝ :=
  if 0 < x then Real.arctan (y / x)
  else if x < 0 then
    (if 0 ≤ y then Real.arctan (y / x) + Real.pi
     else Real.arctan (y / x) - Real.pi)
  else if 0 < y then Real.pi / 2
  else if y < 0 then -(Real.pi / 2)
  else 0

/-- `calculateDistance(lat1, lon1, lat2, lon2)` from the client script:
haversine great-circle distance with Earth radius 6,371,000 m,
converted to yards by the factor 1.09361 and rounded to the nearest
whole yard (`Math.round`, i.e. `⌊x + 1/2⌋`).  The JavaScript floating
point arithmetic is modelled over the reals. -/
noncomputable def calculateDistance (lat1 lon1 lat2 lon2 : ℝ) : ℤ :=
  let R : ℝ := 6371000
  let phi1 := lat1 * Real.pi / 180
  let phi2 := lat2 * Real.pi / 180
  let dphi := (lat2 - lat1) * Real.pi / 180
  let dlam := (lon2 - lon1) * Real.pi / 180
  let a := Real.sin (dphi / 2) * Real.sin (dphi / 2) +
    Real.cos phi1 * Real.cos phi2 * Real.sin (dlam / 2) * Real.sin (dlam / 2)
  let c := 2 * atan2 (Real.sqrt a) (Real.sqrt (1 - a))
  let meters := R * c
  let yards := meters * 1.09361
  round yards

theorem atan2_nonneg {y x : ℝ} (hy : 0 ≤ y) : 0 ≤ atan2 y x := by
  unfold atan2
  split
  · rename_i hx
    have hq : 0 ≤ y / x := div_nonneg hy hx.le
    calc (0:ℝ) = Real.arctan 0 := Real.arctan_zero.symm
      _ ≤ Real.arctan (y / x) := Real.arctan_strictMono.monotone hq
  · split
    · have h := Real.neg_pi_div_two_lt_arctan (y / x)
      have hpi := Real.pi_pos
      linarith
    · split
      · have hpi := Real.pi_pos
        linarith
      · split
        · rename_i hc
          exact absurd hy (not_le.mpr hc)
        · exact le_refl 0

theorem round_yards_nonneg (t : ℝ) (ht : 0 ≤ t) :
    0 ≤ round ((6371000 : ℝ) * (2 * t) * 1.09361) := by
  have h1 : 0 ≤ (6371000 : ℝ) * (2 * t) * 1.09361 := by
    apply mul_nonneg (mul_nonneg (by norm_num) (by linarith)) (by norm_num)
  rw [round_eq, Int.le_floor]
  push_cast
  linarith

/-- **C8**: the distance calculator is symmetric, vanishes on identical
points, and always yields a non-negative (integer) number of yards. -/
theorem calculateDistance_props (lat1 lon1 lat2 lon2 : ℝ) :
    calculateDistance lat1 lon1 lat2 lon2 =
      calculateDistance lat2 lon2 lat1 lon1 ∧
    calculateDistance lat1 lon1 lat1 lon1 = 0 ∧
    0 ≤ calculateDistance lat1 lon1 lat2 lon2 := by
  refine ⟨?_, ?_, ?_⟩
  · simp only [calculateDistance]
    have ha : Real.sin ((lat1 - lat2) * Real.pi / 180 / 2) *
        Real.sin ((lat1 - lat2) * Real.pi / 180 / 2) +
        Real.cos (lat2 * Real.pi / 180) * Real.cos (lat1 * Real.pi / 180) *
        Real.sin ((lon1 - lon2) * Real.pi / 180 / 2) *
        Real.sin ((lon1 - lon2) * Real.pi / 180 / 2) =
        Real.sin ((lat2 - lat1) * Real.pi / 180 / 2) *
        Real.sin ((lat2 - lat1) * Real.pi / 180 / 2) +
        Real.cos (lat1 * Real.pi / 180) * Real.cos (lat2 * Real.pi / 180) *
        Real.sin ((lon2 - lon1) * Real.pi / 180 / 2) *
        Real.sin ((lon2 - lon1) * Real.pi / 180 / 2) := by
      rw [show (lat1 - lat2) * Real.pi / 180 / 2 =
            -((lat2 - lat1) * Real.pi / 180 / 2) by ring,
          show (lon1 - lon2) * Real.pi / 180 / 2 =
            -((lon2 - lon1) * Real.pi / 180 / 2) by ring,
          Real.sin_neg, Real.sin_neg]
      ring
    rw [ha]
  · simp only [calculateDistance]
    rw [show (lat1 - lat1) * Real.pi / 180 / 2 = 0 by ring,
        show (lon1 - lon1) * Real.pi / 180 / 2 = 0 by ring,
        Real.sin_zero]
    norm_num [atan2, Real.arctan_zero]
  · simp only [calculateDistance]
    exact round_yards_nonneg _ (atan2_nonneg (Real.sqrt_nonneg _))

end GolfShotDB
